import Mathlib

/-!
Shallow embedding of `arxiv_dev.py` (auto_repo_archiver): a linear pipeline
that downloads arXiv PDFs, scans their page text for GitHub URLs, and
optionally asks the Wayback Machine to archive each discovered URL.
Network collaborators (download, PDF opening, availability GET, save POST)
are modelled as environment functions returning `Except`; observable
behaviour (log lines and outbound calls) is recorded as an event trace.
-/

namespace ArxivDev

/-- A minimal JSON value, as produced by `response.json()` in the Python code. -/
inductive Json where
  | null : Json
  | bool (b : Bool) : Json
  | str (s : String) : Json
  | num (n : Int) : Json
  | arr (xs : List Json) : Json
  | obj (fields : List (String × Json)) : Json

/-- Python exceptions that the embedding distinguishes.  `keyError k` models
`KeyError(k)`; every other exception is carried as a message. -/
inductive PyErr where
  | keyError (key : String) : PyErr
  | exn (msg : String) : PyErr
deriving DecidableEq, Repr

/-- A single-quote character, used when rendering a `KeyError` the way
Python's `str` does. -/
def sq : String := String.singleton (Char.ofNat 39)

/-- Python `str(e)` for the exceptions we model: `str(KeyError(k))` is the
quoted key. -/
def PyErr.render : PyErr → String
  | .keyError k => sq ++ k ++ sq
  | .exn m => m

/-- Python truthiness of a JSON value (`if data.get(...)`). -/
def Json.truthy : Json → Bool
  | .null => false
  | .bool b => b
  | .str s => !(s == "")
  | .num n => !(n == 0)
  | .arr xs => !xs.isEmpty
  | .obj fields => !fields.isEmpty

/-- `d.get(k)` on a JSON object: `some` value if the key is present, `none`
otherwise (`none` also stands for Python's `None` result). -/
def Json.get? : Json → String → Option Json
  | .obj fields, k => (fields.find? (fun p => p.1 == k)).map (·.2)
  | _, _ => none

/-- `d[k]` subscription: `KeyError` when the key is missing from an object,
`TypeError` when the value is not an object. -/
def Json.index : Json → String → Except PyErr Json
  | .obj fields, k =>
      match (fields.find? (fun p => p.1 == k)).map (·.2) with
      | some v => .ok v
      | none => .error (.keyError k)
  | _, _ => .error (.exn "TypeError")

/-- Rendering of a JSON value inside a Python f-string (`str(value)`).
Container renderings are abbreviated; no claim depends on them. -/
def Json.render : Json → String
  | .null => "None"
  | .bool b => if b then "True" else "False"
  | .str s => s
  | .num n => toString n
  | .arr _ => "[...]"
  | .obj _ => "\x7b...\x7d"

/-- Observable actions of the script: log lines (`logger.info`), a PDF
download (`result.download_pdf`, keyed by the arXiv identifier), the Wayback
availability GET and the Wayback save POST. -/
inductive Event where
  | log (msg : String) : Event
  | download (id : String) : Event
  | getAvail (url : String) : Event
  | postSave (url : String) : Event
deriving DecidableEq, Repr

/-- An arXiv search `Result`, reduced to the two fields the pipeline reads. -/
structure Result where
  entry_id : String
  title : String
deriving DecidableEq, Repr

/-- Python `str.split(sep)` for a one-character separator, on the
character list. -/
def splitOnChar (sep : Char) : List Char → List (List Char)
  | [] => [[]]
  | c :: cs =>
    match splitOnChar sep cs with
    | [] => [[]]
    | grp :: rest => if c = sep then [] :: grp :: rest else (c :: grp) :: rest

/-- The last element of a list of segments (`split(...)` is never empty, so
the default is immaterial). -/
def lastGrp : List (List Char) → List Char
  | [] => []
  | [g] => g
  | _ :: gs => lastGrp gs

/-- `result.entry_id.split('/')[-1]`: the last `/`-separated segment. -/
def lastSeg (s : String) : String := (lastGrp (splitOnChar '/' s.data)).asString

/- ### Link Extractor: `re.compile(r"https?://github\.com/[^\s,]+").findall` -/

/-- A character matched by `[^\s,]`: not whitespace and not a comma.
Whitespace is the ASCII class matched by Python's `\s`. -/
def isUrlChar (c : Char) : Bool :=
  !(c == ' ' || c == '\t' || c == '\n' || c == '\r' ||
    c == Char.ofNat 11 || c == Char.ofNat 12 || c == ',')

/-- The longer of the two literal alternatives of `https?://github\.com/`,
tried first by the regex engine (greedy `s?`). -/
def httpsLit : List Char := "https://github.com/".toList

/-- The shorter alternative of `https?://github\.com/`. -/
def httpLit : List Char := "http://github.com/".toList

/-- Drop a literal from the front of the input, or fail. -/
def dropLit : List Char → List Char → Option (List Char)
  | [], cs => some cs
  | _ :: _, [] => none
  | p :: ps, c :: cs => if c = p then dropLit ps cs else none

/-- Attempt a regex match anchored at the start of `cs`: one of the two
literal alternatives followed by a maximal nonempty run of `[^\s,]`
characters.  Returns the matched text and the remainder after it. -/
def tryMatch (cs : List Char) : Option (List Char × List Char) :=
  match dropLit httpsLit cs with
  | some rest =>
      if (rest.takeWhile isUrlChar).isEmpty then none
      else some (httpsLit ++ rest.takeWhile isUrlChar, rest.dropWhile isUrlChar)
  | none =>
      match dropLit httpLit cs with
      | some rest =>
          if (rest.takeWhile isUrlChar).isEmpty then none
          else some (httpLit ++ rest.takeWhile isUrlChar, rest.dropWhile isUrlChar)
      | none => none

/-- Fuelled scanner: scan left to right, take each leftmost non-overlapping
match, resume after the match.  Each step consumes at least one character,
so `cs.length` fuel is always enough. -/
def scanUrlsFuel : Nat → List Char → List (List Char)
  | 0, _ => []
  | _ + 1, [] => []
  | fuel + 1, c :: cs' =>
    match tryMatch (c :: cs') with
    | some (m, rest) => m :: scanUrlsFuel fuel rest
    | none => scanUrlsFuel fuel cs'

/-- `findall` on the character list. -/
def scanUrls (cs : List Char) : List (List Char) := scanUrlsFuel cs.length cs

/-- `github_url_pattern.findall(text)` as used on each page's text. -/
def findall (text : String) : List String :=
  (scanUrls text.toList).map List.asString

/- ### Environment: the external collaborators as deterministic oracles -/

/-- The external collaborators of the script.  `download` is
`result.download_pdf(filename=path)`; `openDoc` is `fitz.open(path)`
followed by iterating the pages, each page being `page.get_text()` (which
may itself raise); `avail` is the Wayback availability GET returning a
parsed JSON body; `save` is the Wayback save POST returning an HTTP status
code.  An `Except.error` models a raised exception. -/
structure Env where
  download : Result → String → Except PyErr Unit
  openDoc : String → Except PyErr (List (Except PyErr String))
  avail : String → Except PyErr Json
  save : String → Except PyErr Nat

/- ### Archive Requester: `archive_urls` -/

/-- `if data.get("archived_snapshots"):` — the truthiness test guarding the
already-archived branch. -/
def snapsTruthy (data : Json) : Bool :=
  ((data.get? "archived_snapshots").map Json.truthy).getD false

/-- The body of `archive_urls` for one URL: the availability GET, the
truthiness branch, and on the empty branch the save POST with its status
check.  Returns the events in order and the exception, if one was raised. -/
def archiveOne (env : Env) (url : String) : List Event × Option PyErr :=
  match env.avail url with
  | .error e => ([.getAvail url], some e)
  | .ok data =>
    match data with
    | .obj _ =>
      if snapsTruthy data then
        -- line 91 logs first; line 92's f-string subscripts may raise KeyError
        match (do
            let a ← data.index "archived_snapshots"
            let b ← a.index "closest"
            b.index "url" : Except PyErr Json) with
        | .error e =>
            ([.getAvail url, .log ("The URL " ++ url ++ " is already archived.")], some e)
        | .ok snap =>
            ([.getAvail url, .log ("The URL " ++ url ++ " is already archived."),
              .log ("Archived URL: " ++ snap.render)], none)
      else
        match env.save url with
        | .error e =>
            ([.getAvail url,
              .log ("The URL " ++ url ++ " is not yet archived. Archiving now..."),
              .postSave url], some e)
        | .ok code =>
            ([.getAvail url,
              .log ("The URL " ++ url ++ " is not yet archived. Archiving now..."),
              .postSave url,
              .log (if code == 200 then
                "Got success response for " ++ url ++
                  " - Note, it may take some minutes or hours to show up"
              else
                "Failed to archive " ++ url ++ ". Status code: " ++ toString code)],
             none)
    | _ =>
      -- `data.get(...)` on a non-dict raises AttributeError
      ([.getAvail url], some (.exn "AttributeError"))

/-- `archive_urls(urls)`: process the list in order; an exception raised for
one URL propagates, so later URLs are not reached. -/
def archive_urls (env : Env) : List String → List Event × Option PyErr
  | [] => ([], none)
  | u :: us =>
    match archiveOne env u with
    | (evs, some e) => (evs, some e)
    | (evs, none) =>
      match archive_urls env us with
      | (evs', err) => (evs ++ evs', err)

/-- Number of availability GET calls in a trace. -/
def readCount (evs : List Event) : Nat :=
  evs.countP (fun ev => match ev with | .getAvail _ => true | _ => false)

/-- Number of save POST calls in a trace. -/
def writeCount (evs : List Event) : Nat :=
  evs.countP (fun ev => match ev with | .postSave _ => true | _ => false)

/- ### Paper Pipeline: `download_and_scan_papers` -/

/-- The inner loop over the URLs found on one page: either call
`archive_urls([url])` (archiving enabled) or log the URL. -/
def urlLoop (env : Env) (trigger : Bool) : List String → List Event × Option PyErr
  | [] => ([], none)
  | u :: us =>
    if trigger then
      match archive_urls env [u] with
      | (evs, some e) => (evs, some e)
      | (evs, none) =>
        match urlLoop env trigger us with
        | (evs', err) => (evs ++ evs', err)
    else
      match urlLoop env trigger us with
      | (evs', err) => (.log u :: evs', err)

/-- The loop over a document's pages: extract each page's text (which may
raise), run the Link Extractor, and if any URLs were found emit the
"GitHub URLs found:" header, process each URL, and log a blank line. -/
def pageLoop (env : Env) (trigger : Bool) :
    List (Except PyErr String) → List Event × Option PyErr
  | [] => ([], none)
  | p :: ps =>
    match p with
    | .error e => ([], some e)
    | .ok text =>
      if (findall text).isEmpty then
        pageLoop env trigger ps
      else
        match urlLoop env trigger (findall text) with
        | (uevs, some e) => (.log "GitHub URLs found:" :: uevs, some e)
        | (uevs, none) =>
          match pageLoop env trigger ps with
          | (evs', err) =>
            (.log "GitHub URLs found:" :: uevs ++ [.log " "] ++ evs', err)

/-- Steps after the download phase: `fitz.open`, the three header log lines
(blank, paper title, arXiv identifier), then the page loop. -/
def openAndScan (env : Env) (trigger : Bool)
    (path title id : String) : List Event × Option PyErr :=
  match env.openDoc path with
  | .error e => ([], some e)
  | .ok pages =>
    match pageLoop env trigger pages with
    | (evs, err) =>
      ([.log " ", .log ("Paper: " ++ title), .log ("arXiv ID: " ++ id)] ++ evs, err)

/-- The `try` body for one search result: compute the destination path,
download unless the file already exists, then open and scan.  Returns the
updated filesystem, the events, and the exception, if one was raised. -/
def procBody (env : Env) (trigger : Bool) (dir : String) (fs : List String)
    (r : Result) : List String × List Event × Option PyErr :=
  let id := lastSeg r.entry_id
  let path := dir ++ "/" ++ id ++ ".pdf"
  if path ∈ fs then
    match openAndScan env trigger path r.title id with
    | (evs, err) => (fs, evs, err)
  else
    match env.download r path with
    | .error e => (fs, [.download id], some e)
    | .ok _ =>
      match openAndScan env trigger path r.title id with
      | (evs, err) => (path :: fs, .download id :: evs, err)

/-- One iteration of the pipeline's `for result in ...` loop: the `try`
body wrapped in the `except Exception` handler, which logs the error with
the result's identifier and swallows it. -/
def processResult (env : Env) (trigger : Bool) (dir : String) (fs : List String)
    (r : Result) : List String × List Event :=
  match procBody env trigger dir fs r with
  | (fs', evs, none) => (fs', evs)
  | (fs', evs, some e) =>
    (fs', evs ++ [.log ("Error processing " ++ lastSeg r.entry_id ++ ": " ++ e.render)])

/-- `download_and_scan_papers(results, directory, trigger_archive)`:
process each result in order, threading the filesystem (downloaded files)
and accumulating the event trace.  Directory creation has no observable
event in this model. -/
def download_and_scan_papers (env : Env) (trigger : Bool) (dir : String)
    (fs : List String) : List Result → List String × List Event
  | [] => (fs, [])
  | r :: rs =>
    match processResult env trigger dir fs r with
    | (fs', evs) =>
      match download_and_scan_papers env trigger dir fs' rs with
      | (fs'', evs') => (fs'', evs ++ evs')

/- ### Derived predicates used by the specification claims -/

/-- A string that is a full match of `https?://github\.com/[^\s,]+`: one of
the two literal alternatives followed by a nonempty run of characters that
are neither whitespace nor comma. -/
def isFullMatch (u : String) : Bool :=
  match dropLit httpsLit u.toList with
  | some rest => !rest.isEmpty && rest.all isUrlChar
  | none =>
    match dropLit httpLit u.toList with
    | some rest => !rest.isEmpty && rest.all isUrlChar
    | none => false

/-- Events that the page-scanning phase (page loop, URL loop, archive
requester) can emit: never a download, and any log line starts with one of
the initial characters of that phase's fixed message formats (or the
leading `h` of a discovered URL). -/
def scanEv (ev : Event) : Bool :=
  match ev with
  | .download _ => false
  | .getAvail _ => true
  | .postSave _ => true
  | .log m =>
    match m.data.head? with
    | some c => ['G', ' ', 'h', 'T', 'A', 'F'].contains c
    | none => false

/- ### Concrete instances used by closed theorems -/

/-- A well-formed availability body reporting an existing snapshot. -/
def goodAvail : Json :=
  .obj [("archived_snapshots",
    .obj [("closest", .obj [("url", .str "http://web.archive.org/web/123/x")])])]

/-- The availability body the Wayback API returns when no snapshot exists:
`archived_snapshots` present but an empty (hence falsy) object. -/
def noSnapAvail : Json := .obj [("archived_snapshots", .obj [])]

/-- An availability body whose `archived_snapshots` is truthy but has no
`closest` entry. -/
def malformedAvail : Json := .obj [("archived_snapshots", .obj [("status", .str "200")])]

/-- Environment where every URL is already archived and every document
opens to one page without links. -/
def envArchived : Env where
  download := fun _ _ => .ok ()
  openDoc := fun _ => .ok [.ok "no links here"]
  avail := fun _ => .ok goodAvail
  save := fun _ => .ok 200

/-- Environment with no prior snapshot and a save endpoint returning 200. -/
def envNoSnap200 : Env where
  download := fun _ _ => .ok ()
  openDoc := fun _ => .ok []
  avail := fun _ => .ok noSnapAvail
  save := fun _ => .ok 200

/-- Environment with no prior snapshot and a save endpoint returning 500. -/
def envNoSnap500 : Env where
  download := fun _ _ => .ok ()
  openDoc := fun _ => .ok []
  avail := fun _ => .ok noSnapAvail
  save := fun _ => .ok 500

/-- Environment whose availability response is `malformedAvail` and whose
documents contain two GitHub URLs on one page. -/
def envMalformed : Env where
  download := fun _ _ => .ok ()
  openDoc := fun _ => .ok [.ok "https://github.com/a/b https://github.com/c/d"]
  avail := fun _ => .ok malformedAvail
  save := fun _ => .ok 200

/-- Environment where opening the first sample paper raises and every other
document opens to a page with one GitHub link. -/
def envBoom : Env where
  download := fun _ _ => .ok ()
  openDoc := fun path =>
    if path == "./pdfs/1.pdf" then .error (.exn "boom")
    else .ok [.ok "see https://github.com/foo/bar end"]
  avail := fun _ => .ok goodAvail
  save := fun _ => .ok 200

/-- A sample search result with identifier `1234.5678v1`. -/
def rSample : Result := { entry_id := "http://arxiv.org/abs/1234.5678v1", title := "T" }

/-- Sample result whose processing raises under `envBoom`. -/
def rB1 : Result := { entry_id := "http://arxiv.org/abs/1", title := "A" }

/-- Sample result whose processing succeeds under `envBoom`. -/
def rB2 : Result := { entry_id := "http://arxiv.org/abs/2", title := "B" }

/- ### Basic lemmas about the scanner -/

theorem dropLit_length {p cs rest : List Char} (h : dropLit p cs = some rest) :
    rest.length + p.length = cs.length := by
  induction p generalizing cs with
  | nil => simp [dropLit] at h; simp [h]
  | cons x xs ih =>
    cases cs with
    | nil => simp [dropLit] at h
    | cons c cs' =>
      simp only [dropLit] at h
      split at h
      · have := ih h
        simp [List.length_cons]; omega
      · exact absurd h (by simp)

theorem length_dropWhile_le (p : Char → Bool) (l : List Char) :
    (l.dropWhile p).length ≤ l.length := by
  induction l with
  | nil => simp [List.dropWhile]
  | cons c cs ih =>
    simp only [List.dropWhile]
    split
    · exact Nat.le_succ_of_le ih
    · exact Nat.le_refl _

theorem tryMatch_rest_length {cs m rest : List Char}
    (h : tryMatch cs = some (m, rest)) : rest.length < cs.length := by
  unfold tryMatch at h
  have hlen : ∀ l : List Char, (l.dropWhile isUrlChar).length ≤ l.length :=
    fun l => length_dropWhile_le _ _
  split at h
  case h_1 rest0 heq =>
    have hd := dropLit_length heq
    split at h
    · exact absurd h (by simp)
    · simp only [Option.some.injEq, Prod.mk.injEq] at h
      have := hlen rest0
      have : rest.length ≤ rest0.length := h.2 ▸ this
      simp [httpsLit] at hd
      omega
  case h_2 =>
    split at h
    case h_1 rest0 heq =>
      have hd := dropLit_length heq
      split at h
      · exact absurd h (by simp)
      · simp only [Option.some.injEq, Prod.mk.injEq] at h
        have := hlen rest0
        have : rest.length ≤ rest0.length := h.2 ▸ this
        simp [httpLit] at hd
        omega
    case h_2 => exact absurd h (by simp)

/-- The scanner's result does not depend on the fuel, provided there is
enough of it. -/
theorem scanUrlsFuel_congr :
    ∀ f1 f2 cs, cs.length ≤ f1 → cs.length ≤ f2 →
      scanUrlsFuel f1 cs = scanUrlsFuel f2 cs := by
  intro f1
  induction f1 with
  | zero =>
    intro f2 cs h1 _
    have : cs = [] := List.length_eq_zero.mp (Nat.le_zero.mp h1)
    subst this
    cases f2 <;> rfl
  | succ f1 ih =>
    intro f2 cs h1 h2
    cases cs with
    | nil => cases f2 <;> rfl
    | cons c cs' =>
      cases f2 with
      | zero => simp at h2
      | succ g =>
        simp only [scanUrlsFuel]
        rcases hm : tryMatch (c :: cs') with _ | ⟨m, rest⟩
        · simp only [List.length_cons] at h1 h2
          show scanUrlsFuel f1 cs' = scanUrlsFuel g cs'
          exact ih g cs' (by omega) (by omega)
        · have hlt := tryMatch_rest_length hm
          simp only [List.length_cons] at h1 h2 hlt
          show m :: scanUrlsFuel f1 rest = m :: scanUrlsFuel g rest
          rw [ih g rest (by omega) (by omega)]

/-- Unfolding equation for the scanner at a successful anchored match. -/
theorem scanUrls_cons_some {c : Char} {cs' m rest : List Char}
    (h : tryMatch (c :: cs') = some (m, rest)) :
    scanUrls (c :: cs') = m :: scanUrls rest := by
  have hlt := tryMatch_rest_length h
  simp only [List.length_cons] at hlt
  unfold scanUrls
  simp only [List.length_cons, scanUrlsFuel, h]
  rw [scanUrlsFuel_congr cs'.length rest.length rest (by omega) (by omega)]

/-- Unfolding equation for the scanner at a failed anchored match. -/
theorem scanUrls_cons_none {c : Char} {cs' : List Char}
    (h : tryMatch (c :: cs') = none) :
    scanUrls (c :: cs') = scanUrls cs' := by
  unfold scanUrls
  simp only [List.length_cons, scanUrlsFuel, h]

theorem dropLit_self (p r : List Char) : dropLit p (p ++ r) = some r := by
  induction p with
  | nil => rfl
  | cons c cs ih => simp [dropLit, ih]

theorem takeWhile_append_all {p : Char → Bool} {l r : List Char}
    (h : l.all p = true) : (l ++ r).takeWhile p = l ++ r.takeWhile p := by
  induction l with
  | nil => rfl
  | cons c cs ih =>
    simp only [List.all_cons, Bool.and_eq_true] at h
    simp [List.takeWhile, h.1, ih h.2]

theorem dropWhile_append_all {p : Char → Bool} {l r : List Char}
    (h : l.all p = true) : (l ++ r).dropWhile p = r.dropWhile p := by
  induction l with
  | nil => rfl
  | cons c cs ih =>
    simp only [List.all_cons, Bool.and_eq_true] at h
    simp [List.dropWhile, h.1, ih h.2]

/-- Shape of a single anchored match: a literal alternative followed by a
nonempty all-`[^\s,]` run. -/
theorem tryMatch_shape {cs m rest : List Char} (h : tryMatch cs = some (m, rest)) :
    ∃ pre run, (pre = httpsLit ∨ pre = httpLit) ∧ m = pre ++ run ∧
      run ≠ [] ∧ run.all isUrlChar = true := by
  unfold tryMatch at h
  split at h
  case h_1 rest0 heq =>
    split at h
    · exact absurd h (by simp)
    case isFalse hne =>
      simp only [Option.some.injEq, Prod.mk.injEq] at h
      refine ⟨httpsLit, rest0.takeWhile isUrlChar, Or.inl rfl, h.1.symm, ?_, ?_⟩
      · simpa [List.isEmpty_iff] using hne
      · simp only [List.all_eq_true]
        exact fun c hc => List.mem_takeWhile_imp hc
  case h_2 =>
    split at h
    case h_1 rest0 heq =>
      split at h
      · exact absurd h (by simp)
      case isFalse hne =>
        simp only [Option.some.injEq, Prod.mk.injEq] at h
        refine ⟨httpLit, rest0.takeWhile isUrlChar, Or.inr rfl, h.1.symm, ?_, ?_⟩
        · simpa [List.isEmpty_iff] using hne
        · simp only [List.all_eq_true]
          exact fun c hc => List.mem_takeWhile_imp hc
    case h_2 => exact absurd h (by simp)

/-- Every element produced by the fuelled scanner has the anchored-match
shape. -/
theorem scanUrlsFuel_shape :
    ∀ fuel cs m, m ∈ scanUrlsFuel fuel cs →
      ∃ pre run, (pre = httpsLit ∨ pre = httpLit) ∧ m = pre ++ run ∧
        run ≠ [] ∧ run.all isUrlChar = true := by
  intro fuel
  induction fuel with
  | zero => intro cs m h; simp [scanUrlsFuel] at h
  | succ fuel ih =>
    intro cs m h
    cases cs with
    | nil => simp [scanUrlsFuel] at h
    | cons c cs' =>
      simp only [scanUrlsFuel] at h
      rcases hm : tryMatch (c :: cs') with _ | ⟨m', rest⟩ <;> rw [hm] at h
      · exact ih cs' m h
      · rcases List.mem_cons.mp h with h1 | h1
        · exact h1 ▸ tryMatch_shape hm
        · exact ih rest m h1

/-- Every element produced by the scanner has the anchored-match shape. -/
theorem scanUrls_shape {cs m : List Char} (h : m ∈ scanUrls cs) :
    ∃ pre run, (pre = httpsLit ∨ pre = httpLit) ∧ m = pre ++ run ∧
      run ≠ [] ∧ run.all isUrlChar = true :=
  scanUrlsFuel_shape cs.length cs m h

theorem asString_toList (l : List Char) : (List.asString l).toList = l := rfl

/-- The `https` alternative never matches text that starts with the plain
`http://github.com/` literal (they disagree at the fifth character). -/
theorem dropLit_https_of_http (r : List Char) :
    dropLit httpsLit (httpLit ++ r) = none := rfl

theorem findall_shape {s u : String} (h : u ∈ findall s) :
    ∃ pre run, (pre = httpsLit ∨ pre = httpLit) ∧ u.toList = pre ++ run ∧
      run ≠ [] ∧ run.all isUrlChar = true := by
  unfold findall at h
  rcases List.mem_map.mp h with ⟨m, hm, rfl⟩
  obtain ⟨pre, run, hpre, rfl, hne, hall⟩ := scanUrls_shape hm
  exact ⟨pre, run, hpre, asString_toList _, hne, hall⟩

theorem isFullMatch_of_shape {u : String} {pre run : List Char}
    (hpre : pre = httpsLit ∨ pre = httpLit) (hu : u.toList = pre ++ run)
    (hne : run ≠ []) (hall : run.all isUrlChar = true) :
    isFullMatch u = true := by
  unfold isFullMatch
  rcases hpre with rfl | rfl
  · rw [hu, dropLit_self]
    simp [List.isEmpty_iff, hne, hall]
  · rw [hu, dropLit_https_of_http, dropLit_self]
    simp [List.isEmpty_iff, hne, hall]

/-- Every string the Link Extractor returns begins with the character `h`
(of `http`). -/
theorem findall_head {s u : String} (h : u ∈ findall s) :
    u.data.head? = some 'h' := by
  obtain ⟨pre, run, hpre, hu, _, _⟩ := findall_shape h
  have hd : u.data = pre ++ run := hu
  rcases hpre with rfl | rfl <;> rw [hd] <;> rfl

/- ### Event-shape lemmas for the scanning phase -/

theorem scanEv_log_head {m : String} {c : Char} (h : m.data.head? = some c)
    (hc : (['G', ' ', 'h', 'T', 'A', 'F'] : List Char).contains c = true) :
    scanEv (.log m) = true := by
  have hev : scanEv (.log m) =
      (match m.data.head? with
       | some c => (['G', ' ', 'h', 'T', 'A', 'F'] : List Char).contains c
       | none => false) := rfl
  rw [hev, h]
  exact hc

theorem archiveOne_ev (env : Env) (u : String) :
    ∀ ev ∈ (archiveOne env u).1, scanEv ev = true := by
  intro ev hev
  unfold archiveOne at hev
  split at hev
  · simp at hev; subst hev; rfl
  · split at hev
    · split at hev
      · split at hev
        · simp at hev
          rcases hev with rfl | rfl <;> rfl
        · simp at hev
          rcases hev with rfl | rfl | rfl <;> rfl
      · split at hev
        · simp at hev
          rcases hev with rfl | rfl | rfl <;> rfl
        · simp at hev
          rcases hev with rfl | rfl | rfl | rfl
          · rfl
          · rfl
          · rfl
          · rename_i code _
            by_cases hc : code = 200
            · subst hc; rfl
            · rw [if_neg hc]; rfl
    · simp at hev; subst hev; rfl

theorem archive_urls_ev (env : Env) :
    ∀ us, ∀ ev ∈ (archive_urls env us).1, scanEv ev = true := by
  intro us
  induction us with
  | nil => intro ev hev; simp [archive_urls] at hev
  | cons u us ih =>
    intro ev hev
    unfold archive_urls at hev
    rcases h1 : archiveOne env u with ⟨evs, err⟩
    rw [h1] at hev
    cases err with
    | some e =>
      simp only at hev
      exact archiveOne_ev env u ev (h1 ▸ hev)
    | none =>
      rcases h2 : archive_urls env us with ⟨evs', err'⟩
      rw [h2] at hev
      simp only [List.mem_append] at hev
      rcases hev with hev | hev
      · exact archiveOne_ev env u ev (by rw [h1]; exact hev)
      · exact ih ev (by rw [h2]; exact hev)

theorem urlLoop_ev (env : Env) (trigger : Bool) :
    ∀ us, (∀ u ∈ us, u.data.head? = some 'h') →
      ∀ ev ∈ (urlLoop env trigger us).1, scanEv ev = true := by
  intro us
  induction us with
  | nil => intro _ ev hev; simp [urlLoop] at hev
  | cons u us ih =>
    intro hus ev hev
    unfold urlLoop at hev
    split at hev
    · rcases h1 : archive_urls env [u] with ⟨evs, err⟩
      rw [h1] at hev
      cases err with
      | some e =>
        simp only at hev
        exact archive_urls_ev env [u] ev (h1 ▸ hev)
      | none =>
        rcases h2 : urlLoop env trigger us with ⟨evs', err'⟩
        rw [h2] at hev
        simp only [List.mem_append] at hev
        rcases hev with hev | hev
        · exact archive_urls_ev env [u] ev (by rw [h1]; exact hev)
        · exact ih (fun v hv => hus v (List.mem_cons_of_mem _ hv)) ev (by rw [h2]; exact hev)
    · rcases h2 : urlLoop env trigger us with ⟨evs', err'⟩
      rw [h2] at hev
      simp only [List.mem_cons] at hev
      rcases hev with rfl | hev
      · exact scanEv_log_head (hus u (List.mem_cons_self u us)) rfl
      · exact ih (fun v hv => hus v (List.mem_cons_of_mem _ hv)) ev (by rw [h2]; exact hev)

theorem pageLoop_ev (env : Env) (trigger : Bool) :
    ∀ ps, ∀ ev ∈ (pageLoop env trigger ps).1, scanEv ev = true := by
  intro ps
  induction ps with
  | nil => intro ev hev; simp [pageLoop] at hev
  | cons p ps ih =>
    intro ev hev
    unfold pageLoop at hev
    split at hev
    · simp at hev
    · rename_i text
      split at hev
      · exact ih ev hev
      · split at hev
        · rename_i uevs e hu
          simp only [List.mem_cons] at hev
          rcases hev with rfl | hev
          · rfl
          · exact urlLoop_ev env trigger (findall text)
              (fun v hv => findall_head hv) ev (by rw [hu]; exact hev)
        · rename_i uevs hu
          rcases h2 : pageLoop env trigger ps with ⟨evs', err'⟩
          rw [h2] at hev
          simp only [List.cons_append, List.mem_cons, List.mem_append] at hev
          rcases hev with rfl | hev | hev
          · rfl
          · rcases hev with hev | rfl | hev
            · exact urlLoop_ev env trigger (findall text)
                (fun v hv => findall_head hv) ev (by rw [hu]; exact hev)
            · rfl
            · simp at hev
          · exact ih ev (by rw [h2]; exact hev)

/- ### Lemmas about JSON lookups and the Archive Requester -/

theorem index_ok_obj {j : Json} {k : String} {v : Json} (h : j.index k = .ok v) :
    ∃ fields, j = .obj fields := by
  cases j <;> simp [Json.index] at h
  exact ⟨_, rfl⟩

theorem index_ok_get? {j : Json} {k : String} {v : Json} (h : j.index k = .ok v) :
    j.get? k = some v := by
  cases j <;> simp only [Json.index] at h
  case obj fields =>
    simp only [Json.get?]
    split at h
    · rename_i heq
      simp only [Except.ok.injEq] at h
      rw [heq, h]
    · cases h
  all_goals cases h

theorem get?_some_truthy {j : Json} {k : String} {v : Json} (h : j.get? k = some v) :
    j.truthy = true := by
  cases j <;> simp only [Json.get?] at h
  case obj fields =>
    simp only [Option.map_eq_some'] at h
    obtain ⟨pr, hf, _⟩ := h
    have hne : fields ≠ [] := List.ne_nil_of_mem (List.mem_of_find?_eq_some hf)
    cases fields with
    | nil => exact absurd rfl hne
    | cons a l => rfl
  all_goals cases h

/-- Computation of `archiveOne` on an already-archived URL with a
well-formed availability body. -/
theorem archiveOne_already {env : Env} {url : String} {data u : Json}
    (ha : env.avail url = .ok data)
    (hu : (do
        let a ← data.index "archived_snapshots"
        let b ← a.index "closest"
        b.index "url" : Except PyErr Json) = .ok u) :
    archiveOne env url =
      ([.getAvail url, .log ("The URL " ++ url ++ " is already archived."),
        .log ("Archived URL: " ++ u.render)], none) := by
  cases h1 : data.index "archived_snapshots" with
  | error e => rw [h1] at hu; simp [Bind.bind, Except.bind] at hu
  | ok a =>
    rw [h1] at hu
    simp only [Bind.bind, Except.bind] at hu
    cases h2 : a.index "closest" with
    | error e => rw [h2] at hu; simp at hu
    | ok b =>
      rw [h2] at hu
      have hu' : b.index "url" = .ok u := hu
      obtain ⟨fields, rfl⟩ := index_ok_obj h1
      have htr : snapsTruthy (.obj fields) = true := by
        unfold snapsTruthy
        rw [index_ok_get? h1]
        simpa using get?_some_truthy (index_ok_get? h2)
      unfold archiveOne
      rw [ha]
      simp only [htr, if_true, Bind.bind, Except.bind, h1, h2]
      rw [hu']

/-- Computation of `archiveOne` when no snapshot is reported. -/
theorem archiveOne_save {env : Env} {url : String} {fields : List (String × Json)}
    {code : Nat}
    (ha : env.avail url = .ok (.obj fields))
    (hf : snapsTruthy (.obj fields) = false)
    (hs : env.save url = .ok code) :
    archiveOne env url =
      ([.getAvail url,
        .log ("The URL " ++ url ++ " is not yet archived. Archiving now..."),
        .postSave url,
        .log (if code == 200 then
          "Got success response for " ++ url ++
            " - Note, it may take some minutes or hours to show up"
        else
          "Failed to archive " ++ url ++ ". Status code: " ++ toString code)],
       none) := by
  unfold archiveOne
  rw [ha]
  simp only [hf, Bool.false_eq_true, if_false, hs]

/- ### Lemmas about the pipeline -/

theorem openAndScan_ev (env : Env) (trigger : Bool) (path title id : String) :
    ∀ ev ∈ (openAndScan env trigger path title id).1,
      ev = .log " " ∨ ev = .log ("Paper: " ++ title) ∨
      ev = .log ("arXiv ID: " ++ id) ∨ scanEv ev = true := by
  intro ev hev
  unfold openAndScan at hev
  split at hev
  · simp at hev
  · rename_i pages heq
    rcases hpl : pageLoop env trigger pages with ⟨sevs, serr⟩
    rw [hpl] at hev
    simp only [List.cons_append, List.nil_append, List.mem_cons] at hev
    rcases hev with rfl | rfl | rfl | hev
    · exact Or.inl rfl
    · exact Or.inr (Or.inl rfl)
    · exact Or.inr (Or.inr (Or.inl rfl))
    · exact Or.inr (Or.inr (Or.inr (pageLoop_ev env trigger pages ev (by rw [hpl]; exact hev))))

theorem openAndScan_eq (env : Env) (trigger : Bool) (path title id : String)
    {pages : List (Except PyErr String)} (hopen : env.openDoc path = .ok pages) :
    openAndScan env trigger path title id =
      ([.log " ", .log ("Paper: " ++ title), .log ("arXiv ID: " ++ id)] ++
        (pageLoop env trigger pages).1,
       (pageLoop env trigger pages).2) := by
  unfold openAndScan
  rw [hopen]

theorem procBody_skip {env : Env} {trigger : Bool} {dir : String} {fs : List String}
    {r : Result} (h : (dir ++ "/" ++ lastSeg r.entry_id ++ ".pdf") ∈ fs) :
    procBody env trigger dir fs r =
      (fs,
       (openAndScan env trigger (dir ++ "/" ++ lastSeg r.entry_id ++ ".pdf")
         r.title (lastSeg r.entry_id)).1,
       (openAndScan env trigger (dir ++ "/" ++ lastSeg r.entry_id ++ ".pdf")
         r.title (lastSeg r.entry_id)).2) := by
  simp only [procBody]
  rw [if_pos h]

theorem procBody_dl {env : Env} {trigger : Bool} {dir : String} {fs : List String}
    {r : Result} (h : (dir ++ "/" ++ lastSeg r.entry_id ++ ".pdf") ∉ fs)
    (hdl : env.download r (dir ++ "/" ++ lastSeg r.entry_id ++ ".pdf") = .ok ()) :
    procBody env trigger dir fs r =
      ((dir ++ "/" ++ lastSeg r.entry_id ++ ".pdf") :: fs,
       .download (lastSeg r.entry_id) ::
         (openAndScan env trigger (dir ++ "/" ++ lastSeg r.entry_id ++ ".pdf")
           r.title (lastSeg r.entry_id)).1,
       (openAndScan env trigger (dir ++ "/" ++ lastSeg r.entry_id ++ ".pdf")
         r.title (lastSeg r.entry_id)).2) := by
  simp only [procBody]
  rw [if_neg h, hdl]

theorem processResult_eq (env : Env) (trigger : Bool) (dir : String)
    (fs : List String) (r : Result) :
    processResult env trigger dir fs r =
      ((procBody env trigger dir fs r).1,
       (procBody env trigger dir fs r).2.1 ++
         (match (procBody env trigger dir fs r).2.2 with
          | none => []
          | some e => [.log ("Error processing " ++ lastSeg r.entry_id ++ ": " ++ e.render)])) := by
  unfold processResult
  rcases hb : procBody env trigger dir fs r with ⟨fs', evs, err⟩
  cases err <;> simp

/- ### Claim theorems -/

/-- Claim C1: an exception raised while processing one search result is
caught and logged with that result's identifier, and the pipeline continues:
with two documents where the first's processing raises, the whole trace is
the first item's events, the error log, then the full trace of the second
item's processing. -/
theorem c1_pipeline_isolates_item_failure (env : Env) (trigger : Bool)
    (dir : String) (fs : List String) (r1 r2 : Result) (e : PyErr)
    (h : (procBody env trigger dir fs r1).2.2 = some e) :
    (download_and_scan_papers env trigger dir fs [r1, r2]).2 =
      (procBody env trigger dir fs r1).2.1 ++
        [.log ("Error processing " ++ lastSeg r1.entry_id ++ ": " ++ e.render)] ++
        (processResult env trigger dir (procBody env trigger dir fs r1).1 r2).2 := by
  rcases hb : procBody env trigger dir fs r1 with ⟨fs1, evs1, err1⟩
  rw [hb] at h
  simp only at h
  subst h
  have hp1 : processResult env trigger dir fs r1 =
      (fs1, evs1 ++ [.log ("Error processing " ++ lastSeg r1.entry_id ++ ": " ++ e.render)]) := by
    unfold processResult
    rw [hb]
  rcases hp2 : processResult env trigger dir fs1 r2 with ⟨fs2, evs2⟩
  simp only [download_and_scan_papers, hp1, hb, hp2, List.append_nil, List.append_assoc]

/-- Witness for C1: under `envBoom` the first sample paper's opening raises
`boom`, the error is logged with its identifier, and the second paper's
links are still processed. -/
theorem c1_pipeline_isolates_item_failure_witness :
    (procBody envBoom false "./pdfs" [] rB1).2.2 = some (.exn "boom") ∧
    (download_and_scan_papers envBoom false "./pdfs" [] [rB1, rB2]).2 =
      (procBody envBoom false "./pdfs" [] rB1).2.1 ++
        [.log ("Error processing " ++ lastSeg rB1.entry_id ++ ": " ++ (PyErr.exn "boom").render)] ++
        (processResult envBoom false "./pdfs" (procBody envBoom false "./pdfs" [] rB1).1 rB2).2 :=
  ⟨rfl, c1_pipeline_isolates_item_failure envBoom false "./pdfs" [] rB1 rB2 (.exn "boom") rfl⟩

/-- Counterexample to claim C2: a document whose single page yields no
GitHub link still has its title and identifier reported, so the report is
not conditional on a link being found. -/
theorem c2_title_reported_without_links_counterexample :
    findall "no links here" = [] ∧
    (processResult envArchived true "./pdfs" ["./pdfs/1234.5678v1.pdf"] rSample).2 =
      [.log " ", .log "Paper: T", .log "arXiv ID: 1234.5678v1"] ∧
    Event.log ("Paper: " ++ rSample.title) ∈
      (processResult envArchived true "./pdfs" ["./pdfs/1234.5678v1.pdf"] rSample).2 ∧
    Event.log ("arXiv ID: " ++ lastSeg rSample.entry_id) ∈
      (processResult envArchived true "./pdfs" ["./pdfs/1234.5678v1.pdf"] rSample).2 := by
  refine ⟨rfl, rfl, ?_, ?_⟩ <;> decide

/-- Claim C2 as amended: for every document whose PDF is successfully
opened, title and identifier are each reported exactly once — whether or
not any link is found on any page. -/
theorem c2_amended_title_id_reported_once (env : Env) (trigger : Bool)
    (dir : String) (fs : List String) (r : Result)
    (pages : List (Except PyErr String))
    (hdl : (dir ++ "/" ++ lastSeg r.entry_id ++ ".pdf") ∈ fs ∨
           env.download r (dir ++ "/" ++ lastSeg r.entry_id ++ ".pdf") = .ok ())
    (hopen : env.openDoc (dir ++ "/" ++ lastSeg r.entry_id ++ ".pdf") = .ok pages) :
    (processResult env trigger dir fs r).2.count (.log ("Paper: " ++ r.title)) = 1 ∧
    (processResult env trigger dir fs r).2.count
      (.log ("arXiv ID: " ++ lastSeg r.entry_id)) = 1 := by
  have hoas := openAndScan_eq env trigger (dir ++ "/" ++ lastSeg r.entry_id ++ ".pdf")
    r.title (lastSeg r.entry_id) hopen
  have hscan := pageLoop_ev env trigger pages
  have hT0 : (pageLoop env trigger pages).1.count (.log ("Paper: " ++ r.title)) = 0 := by
    refine List.count_eq_zero.mpr (fun hmem => ?_)
    have h1 := hscan _ hmem
    rw [show scanEv (.log ("Paper: " ++ r.title)) = false from rfl] at h1
    exact Bool.noConfusion h1
  have hI0 : (pageLoop env trigger pages).1.count
      (.log ("arXiv ID: " ++ lastSeg r.entry_id)) = 0 := by
    refine List.count_eq_zero.mpr (fun hmem => ?_)
    have h1 := hscan _ hmem
    rw [show scanEv (.log ("arXiv ID: " ++ lastSeg r.entry_id)) = false from rfl] at h1
    exact Bool.noConfusion h1
  have eTs : ((Event.log " ") == (Event.log ("Paper: " ++ r.title))) = false := rfl
  have eTi : ((Event.log ("arXiv ID: " ++ lastSeg r.entry_id)) ==
      (Event.log ("Paper: " ++ r.title))) = false := rfl
  have eTd : ((Event.download (lastSeg r.entry_id)) ==
      (Event.log ("Paper: " ++ r.title))) = false := rfl
  have eTe : ∀ e : PyErr,
      ((Event.log ("Error processing " ++ lastSeg r.entry_id ++ ": " ++ e.render)) ==
        (Event.log ("Paper: " ++ r.title))) = false := fun e => rfl
  have eIs : ((Event.log " ") ==
      (Event.log ("arXiv ID: " ++ lastSeg r.entry_id))) = false := rfl
  have eIt : ((Event.log ("Paper: " ++ r.title)) ==
      (Event.log ("arXiv ID: " ++ lastSeg r.entry_id))) = false := rfl
  have eId : ((Event.download (lastSeg r.entry_id)) ==
      (Event.log ("arXiv ID: " ++ lastSeg r.entry_id))) = false := rfl
  have eIe : ∀ e : PyErr,
      ((Event.log ("Error processing " ++ lastSeg r.entry_id ++ ": " ++ e.render)) ==
        (Event.log ("arXiv ID: " ++ lastSeg r.entry_id))) = false := fun e => rfl
  have hpr := processResult_eq env trigger dir fs r
  by_cases hmem : (dir ++ "/" ++ lastSeg r.entry_id ++ ".pdf") ∈ fs
  · rw [procBody_skip hmem, hoas] at hpr
    rw [hpr]
    rcases hpe : (pageLoop env trigger pages).2 with _ | e
    · constructor <;>
        simp [List.count_append, List.count_cons, eTs, eTi, eTd, eIs, eIt, eId, hT0, hI0]
    · constructor <;>
        simp [List.count_append, List.count_cons, eTs, eTi, eTd, eTe, eIs, eIt, eId, eIe,
          hT0, hI0]
  · have hdl' := hdl.resolve_left hmem
    rw [procBody_dl hmem hdl', hoas] at hpr
    rw [hpr]
    rcases hpe : (pageLoop env trigger pages).2 with _ | e
    · constructor <;>
        simp [List.count_append, List.count_cons, eTs, eTi, eTd, eIs, eIt, eId, hT0, hI0]
    · constructor <;>
        simp [List.count_append, List.count_cons, eTs, eTi, eTd, eTe, eIs, eIt, eId, eIe,
          hT0, hI0]

/-- Witness for the amended C2: the sample paper under `envArchived` (one
linkless page, file already present) has its title and identifier reported
exactly once. -/
theorem c2_amended_title_id_reported_once_witness :
    (("./pdfs" ++ "/" ++ lastSeg rSample.entry_id ++ ".pdf") ∈
        ["./pdfs/1234.5678v1.pdf"] ∨
      envArchived.download rSample
        ("./pdfs" ++ "/" ++ lastSeg rSample.entry_id ++ ".pdf") = .ok ()) ∧
    envArchived.openDoc ("./pdfs" ++ "/" ++ lastSeg rSample.entry_id ++ ".pdf") =
      .ok [.ok "no links here"] ∧
    ((processResult envArchived true "./pdfs" ["./pdfs/1234.5678v1.pdf"] rSample).2.count
        (.log ("Paper: " ++ rSample.title)) = 1 ∧
      (processResult envArchived true "./pdfs" ["./pdfs/1234.5678v1.pdf"] rSample).2.count
        (.log ("arXiv ID: " ++ lastSeg rSample.entry_id)) = 1) :=
  ⟨Or.inl (by decide), rfl,
    c2_amended_title_id_reported_once envArchived true "./pdfs"
      ["./pdfs/1234.5678v1.pdf"] rSample [.ok "no links here"] (Or.inl (by decide)) rfl⟩

/-- Claim C3: for a URL whose availability response reports a prior
snapshot (a `closest.url` locator is present), `archive_urls` performs
exactly one read call, zero write calls, raises nothing, and reports the
existing snapshot locator. -/
theorem c3_already_archived_one_read_no_write (env : Env) (url : String)
    (data u : Json)
    (ha : env.avail url = .ok data)
    (hu : (do
        let a ← data.index "archived_snapshots"
        let b ← a.index "closest"
        b.index "url" : Except PyErr Json) = .ok u) :
    archive_urls env [url] =
      ([.getAvail url, .log ("The URL " ++ url ++ " is already archived."),
        .log ("Archived URL: " ++ u.render)], none) ∧
    readCount (archive_urls env [url]).1 = 1 ∧
    writeCount (archive_urls env [url]).1 = 0 := by
  have hone := archiveOne_already ha hu
  have hmain : archive_urls env [url] =
      ([.getAvail url, .log ("The URL " ++ url ++ " is already archived."),
        .log ("Archived URL: " ++ u.render)], none) := by
    unfold archive_urls
    rw [hone]
    rfl
  refine ⟨hmain, ?_, ?_⟩ <;> rw [hmain] <;> rfl

/-- Witness for C3 at `envArchived` and a concrete URL. -/
theorem c3_already_archived_one_read_no_write_witness :
    envArchived.avail "https://github.com/foo/bar" = .ok goodAvail ∧
    (do
      let a ← goodAvail.index "archived_snapshots"
      let b ← a.index "closest"
      b.index "url" : Except PyErr Json) = .ok (.str "http://web.archive.org/web/123/x") ∧
    (archive_urls envArchived ["https://github.com/foo/bar"] =
      ([.getAvail "https://github.com/foo/bar",
        .log ("The URL " ++ "https://github.com/foo/bar" ++ " is already archived."),
        .log ("Archived URL: " ++ (Json.str "http://web.archive.org/web/123/x").render)],
       none) ∧
     readCount (archive_urls envArchived ["https://github.com/foo/bar"]).1 = 1 ∧
     writeCount (archive_urls envArchived ["https://github.com/foo/bar"]).1 = 0) :=
  ⟨rfl, rfl,
    c3_already_archived_one_read_no_write envArchived "https://github.com/foo/bar"
      goodAvail (.str "http://web.archive.org/web/123/x") rfl rfl⟩

/-- Claim C4: for a URL with no reported snapshot and a save endpoint
returning 200, `archive_urls` reports success with exactly one read call
and one write call. -/
theorem c4_save_success_one_read_one_write (env : Env) (url : String)
    (fields : List (String × Json))
    (ha : env.avail url = .ok (.obj fields))
    (hf : snapsTruthy (.obj fields) = false)
    (hs : env.save url = .ok 200) :
    archive_urls env [url] =
      ([.getAvail url,
        .log ("The URL " ++ url ++ " is not yet archived. Archiving now..."),
        .postSave url,
        .log ("Got success response for " ++ url ++
          " - Note, it may take some minutes or hours to show up")], none) ∧
    readCount (archive_urls env [url]).1 = 1 ∧
    writeCount (archive_urls env [url]).1 = 1 := by
  have hone := archiveOne_save ha hf hs
  have hmain : archive_urls env [url] =
      ([.getAvail url,
        .log ("The URL " ++ url ++ " is not yet archived. Archiving now..."),
        .postSave url,
        .log ("Got success response for " ++ url ++
          " - Note, it may take some minutes or hours to show up")], none) := by
    unfold archive_urls
    rw [hone]
    rfl
  refine ⟨hmain, ?_, ?_⟩ <;> rw [hmain] <;> rfl

/-- Witness for C4 at `envNoSnap200` and a concrete URL. -/
theorem c4_save_success_one_read_one_write_witness :
    envNoSnap200.avail "https://github.com/x/y" =
      .ok (.obj [("archived_snapshots", .obj [])]) ∧
    snapsTruthy (.obj [("archived_snapshots", .obj [])]) = false ∧
    envNoSnap200.save "https://github.com/x/y" = .ok 200 ∧
    (archive_urls envNoSnap200 ["https://github.com/x/y"] =
      ([.getAvail "https://github.com/x/y",
        .log ("The URL " ++ "https://github.com/x/y" ++ " is not yet archived. Archiving now..."),
        .postSave "https://github.com/x/y",
        .log ("Got success response for " ++ "https://github.com/x/y" ++
          " - Note, it may take some minutes or hours to show up")], none) ∧
     readCount (archive_urls envNoSnap200 ["https://github.com/x/y"]).1 = 1 ∧
     writeCount (archive_urls envNoSnap200 ["https://github.com/x/y"]).1 = 1) :=
  ⟨rfl, rfl, rfl,
    c4_save_success_one_read_one_write envNoSnap200 "https://github.com/x/y"
      [("archived_snapshots", .obj [])] rfl rfl rfl⟩

/-- Claim C5: for a URL with no reported snapshot and a save endpoint
returning a non-200 status, `archive_urls` raises no exception and reports
a failure outcome carrying that status code. -/
theorem c5_save_failure_reported_no_exception (env : Env) (url : String)
    (fields : List (String × Json)) (code : Nat)
    (ha : env.avail url = .ok (.obj fields))
    (hf : snapsTruthy (.obj fields) = false)
    (hs : env.save url = .ok code)
    (hc : code ≠ 200) :
    archive_urls env [url] =
      ([.getAvail url,
        .log ("The URL " ++ url ++ " is not yet archived. Archiving now..."),
        .postSave url,
        .log ("Failed to archive " ++ url ++ ". Status code: " ++ toString code)],
       none) := by
  have hone := archiveOne_save ha hf hs
  have hbeq : (code == 200) = false := by simpa using hc
  rw [hbeq] at hone
  unfold archive_urls
  rw [hone]
  rfl

/-- Witness for C5 at `envNoSnap500` and a concrete URL. -/
theorem c5_save_failure_reported_no_exception_witness :
    envNoSnap500.avail "https://github.com/x/y" =
      .ok (.obj [("archived_snapshots", .obj [])]) ∧
    snapsTruthy (.obj [("archived_snapshots", .obj [])]) = false ∧
    envNoSnap500.save "https://github.com/x/y" = .ok 500 ∧
    (500 : Nat) ≠ 200 ∧
    archive_urls envNoSnap500 ["https://github.com/x/y"] =
      ([.getAvail "https://github.com/x/y",
        .log ("The URL " ++ "https://github.com/x/y" ++ " is not yet archived. Archiving now..."),
        .postSave "https://github.com/x/y",
        .log ("Failed to archive " ++ "https://github.com/x/y" ++ ". Status code: " ++
          toString (500 : Nat))], none) :=
  ⟨rfl, rfl, rfl, by decide,
    c5_save_failure_reported_no_exception envNoSnap500 "https://github.com/x/y"
      [("archived_snapshots", .obj [])] 500 rfl rfl rfl (by decide)⟩

/-- Claim C6: when the destination file already exists, the download
collaborator receives no call for that identifier, the filesystem is
unchanged, and processing proceeds directly to opening and scanning the
existing file. -/
theorem c6_existing_file_skips_download (env : Env) (trigger : Bool)
    (dir : String) (fs : List String) (r : Result)
    (h : (dir ++ "/" ++ lastSeg r.entry_id ++ ".pdf") ∈ fs) :
    (processResult env trigger dir fs r).1 = fs ∧
    Event.download (lastSeg r.entry_id) ∉ (processResult env trigger dir fs r).2 ∧
    (processResult env trigger dir fs r).2 =
      (openAndScan env trigger (dir ++ "/" ++ lastSeg r.entry_id ++ ".pdf")
        r.title (lastSeg r.entry_id)).1 ++
        (match (openAndScan env trigger (dir ++ "/" ++ lastSeg r.entry_id ++ ".pdf")
            r.title (lastSeg r.entry_id)).2 with
         | none => []
         | some e => [.log ("Error processing " ++ lastSeg r.entry_id ++ ": " ++ e.render)]) := by
  have hpr := processResult_eq env trigger dir fs r
  rw [procBody_skip h] at hpr
  refine ⟨by rw [hpr], ?_, by rw [hpr]⟩
  rw [hpr]
  intro hmem
  rcases List.mem_append.mp hmem with hmem | hmem
  · rcases openAndScan_ev env trigger _ r.title (lastSeg r.entry_id) _ hmem with
      h1 | h1 | h1 | h1
    · cases h1
    · cases h1
    · cases h1
    · cases h1
  · rcases hoe : (openAndScan env trigger (dir ++ "/" ++ lastSeg r.entry_id ++ ".pdf")
        r.title (lastSeg r.entry_id)).2 with _ | e <;> rw [hoe] at hmem
    · cases hmem
    · simp at hmem

/-- Witness for C6: the sample paper's file is already present, so no
download event occurs and scanning proceeds on the existing file. -/
theorem c6_existing_file_skips_download_witness :
    ("./pdfs" ++ "/" ++ lastSeg rSample.entry_id ++ ".pdf") ∈
      ["./pdfs/1234.5678v1.pdf"] ∧
    ((processResult envArchived true "./pdfs" ["./pdfs/1234.5678v1.pdf"] rSample).1 =
        ["./pdfs/1234.5678v1.pdf"] ∧
      Event.download (lastSeg rSample.entry_id) ∉
        (processResult envArchived true "./pdfs" ["./pdfs/1234.5678v1.pdf"] rSample).2 ∧
      (processResult envArchived true "./pdfs" ["./pdfs/1234.5678v1.pdf"] rSample).2 =
        (openAndScan envArchived true ("./pdfs" ++ "/" ++ lastSeg rSample.entry_id ++ ".pdf")
          rSample.title (lastSeg rSample.entry_id)).1 ++
          (match (openAndScan envArchived true
              ("./pdfs" ++ "/" ++ lastSeg rSample.entry_id ++ ".pdf")
              rSample.title (lastSeg rSample.entry_id)).2 with
           | none => []
           | some e => [.log ("Error processing " ++ lastSeg rSample.entry_id ++ ": " ++
               e.render)])) :=
  ⟨by decide,
    c6_existing_file_skips_download envArchived true "./pdfs"
      ["./pdfs/1234.5678v1.pdf"] rSample (by decide)⟩

/-- Claim C7: on the example text, the Link Extractor returns exactly the
two URLs, with the trailing comma excluded from the first match. -/
theorem c7_findall_example :
    findall "see https://github.com/foo/bar, also http://github.com/baz/qux end" =
      ["https://github.com/foo/bar", "http://github.com/baz/qux"] := rfl

/-- Claim C8: every element the Link Extractor returns is a full match of
`https?://github\.com/[^\s,]+` — no partial matches, no trailing
whitespace or comma. -/
theorem c8_findall_full_matches (s u : String) (h : u ∈ findall s) :
    isFullMatch u = true := by
  obtain ⟨pre, run, hpre, hu, hne, hall⟩ := findall_shape h
  exact isFullMatch_of_shape hpre hu hne hall

/-- Witness for C8 at a concrete text and extracted URL. -/
theorem c8_findall_full_matches_witness :
    "https://github.com/a" ∈ findall "x https://github.com/a b" ∧
    isFullMatch "https://github.com/a" = true :=
  ⟨by decide, c8_findall_full_matches "x https://github.com/a b" "https://github.com/a"
    (by decide)⟩

/-- Claim C9: an availability body whose `archived_snapshots` is truthy but
has no `closest` entry makes `archive_urls` take the already-archived
branch and then raise `KeyError`, so the second URL of the same call is
never processed; inside the pipeline this surfaces as that document's
per-item fault, logged with its identifier. -/
theorem c9_malformed_snapshots_keyerror :
    archive_urls envMalformed ["https://github.com/a/b", "https://github.com/c/d"] =
      ([.getAvail "https://github.com/a/b",
        .log "The URL https://github.com/a/b is already archived."],
       some (.keyError "closest")) ∧
    (download_and_scan_papers envMalformed true "./pdfs" [] [rSample]).2 =
      [.download "1234.5678v1", .log " ", .log "Paper: T",
       .log "arXiv ID: 1234.5678v1",
       .log "GitHub URLs found:",
       .getAvail "https://github.com/a/b",
       .log "The URL https://github.com/a/b is already archived.",
       .log ("Error processing 1234.5678v1: " ++ sq ++ "closest" ++ sq)] :=
  ⟨rfl, rfl⟩

/-- Claim C10: a `github.com` URL immediately followed by punctuation other
than a comma or whitespace keeps that punctuation in the returned match,
for any such punctuation character. -/
theorem c10_trailing_punctuation_included (p : Char) (hp : isUrlChar p = true) :
    findall ("see https://github.com/foo/bar" ++ String.singleton p ++ " end") =
      ["https://github.com/foo/bar" ++ String.singleton p] := by
  have hall : ("foo/bar".toList).all isUrlChar = true := rfl
  have hrun : (("foo/bar".toList ++ (p :: " end".toList)).takeWhile isUrlChar)
      = "foo/bar".toList ++ [p] := by
    rw [takeWhile_append_all hall, List.takeWhile_cons_of_pos hp]
    rfl
  have hdrop : (("foo/bar".toList ++ (p :: " end".toList)).dropWhile isUrlChar)
      = " end".toList := by
    rw [dropWhile_append_all hall, List.dropWhile_cons_of_pos hp]
    rfl
  have ht : tryMatch (httpsLit ++ ("foo/bar".toList ++ (p :: " end".toList)))
      = some (httpsLit ++ ("foo/bar".toList ++ [p]), " end".toList) := by
    unfold tryMatch
    rw [dropLit_self]
    show (if (("foo/bar".toList ++ (p :: " end".toList)).takeWhile isUrlChar).isEmpty then none
      else some (httpsLit ++ ("foo/bar".toList ++ (p :: " end".toList)).takeWhile isUrlChar,
        ("foo/bar".toList ++ (p :: " end".toList)).dropWhile isUrlChar)) =
      some (httpsLit ++ ("foo/bar".toList ++ [p]), " end".toList)
    rw [hrun, hdrop]
    rfl
  have hcons : httpsLit ++ ("foo/bar".toList ++ (p :: " end".toList))
      = 'h' :: ("ttps://github.com/foo/bar".toList ++ (p :: " end".toList)) := rfl
  have hm' : tryMatch ('h' :: ("ttps://github.com/foo/bar".toList ++ (p :: " end".toList)))
      = some (httpsLit ++ ("foo/bar".toList ++ [p]), " end".toList) := by
    rw [← hcons]; exact ht
  have hs5 := scanUrls_cons_some hm'
  have hrest : scanUrls (" end".toList) = [] := rfl
  have e1 : tryMatch ('s' :: 'e' :: 'e' :: ' ' ::
      (httpsLit ++ ("foo/bar".toList ++ (p :: " end".toList)))) = none := rfl
  have e2 : tryMatch ('e' :: 'e' :: ' ' ::
      (httpsLit ++ ("foo/bar".toList ++ (p :: " end".toList)))) = none := rfl
  have e3 : tryMatch ('e' :: ' ' ::
      (httpsLit ++ ("foo/bar".toList ++ (p :: " end".toList)))) = none := rfl
  have e4 : tryMatch (' ' ::
      (httpsLit ++ ("foo/bar".toList ++ (p :: " end".toList)))) = none := rfl
  have hL : ("see https://github.com/foo/bar" ++ String.singleton p ++ " end").toList
      = 's' :: 'e' :: 'e' :: ' ' ::
          (httpsLit ++ ("foo/bar".toList ++ (p :: " end".toList))) := rfl
  unfold findall
  rw [hL, scanUrls_cons_none e1, scanUrls_cons_none e2, scanUrls_cons_none e3,
    scanUrls_cons_none e4, hcons, hs5, hrest]
  rfl

/-- Witness for C10 at the period character. -/
theorem c10_trailing_punctuation_included_witness :
    isUrlChar '.' = true ∧
    findall ("see https://github.com/foo/bar" ++ String.singleton '.' ++ " end") =
      ["https://github.com/foo/bar" ++ String.singleton '.'] :=
  ⟨rfl, c10_trailing_punctuation_included '.' rfl⟩

end ArxivDev
